import Mathlib

/-!
Shallow embedding of the GS-FrontEnd-EmpregosFuturo data pipeline.

The repository has two implementations of the same pipeline:
  - `src/app.py`   : `load_and_process_data` (Streamlit app, cached),
  - `src/regressao.py` : `analyze_job_trends` (console script).

Both read one spreadsheet per year (2015..2024), normalize columns, concatenate,
coerce the employment count to numeric, filter to rows whose group label is
exactly "detailed", fit a least-squares line of employment against year per
occupation code, and sort the results by slope descending.

Modelling conventions:
  - a spreadsheet cell is `Cell` (null / string / numeric); pandas NaN is `Cell.null`;
  - a DataFrame is a list of rows plus presence flags for the optional columns
    (pandas raises `KeyError` when a column selected by name is absent; `pd.concat`
    takes the union of columns, filling missing values with NaN);
  - machine floats are modelled as exact rationals (`ℚ`); `numpy.int64` casts
    (`astype`) truncate toward zero, modelled by `truncQ`;
  - Python exceptions are `Except PyError`; an uncaught exception aborts the
    pipeline, modelled by error propagation through each stage;
  - `scipy.stats.linregress` raises `ValueError` when all x values are identical
    and otherwise returns the ordinary-least-squares slope
    `(n*Σxy - Σx*Σy) / (n*Σxx - (Σx)^2)`;
  - `pandas.to_numeric(..., errors="coerce")` turns unparseable tokens into NaN;
    its numeral grammar is modelled by `parseNumToken` (sign, digits, optional
    fractional part), which covers every token the claims mention;
  - `groupby("OCC_CODE")` drops null keys, sorts group keys, and preserves row
    order inside each group; `GroupBy.last()` takes the last non-null entry;
  - `sort_values(by="slope", ascending=False)` is modelled as a stable descending
    insertion sort (`numpy` uses plain insertion sort for the small inputs all
    concrete developments here evaluate; see the notes on the stability claim);
  - message punctuation (quotes, diacritics) is simplified; the identifying
    content (year, path, column name) is kept.
-/

namespace EmpregosFuturo

/-- Cell of a loaded spreadsheet: pandas NaN, a string token, or a number. -/
inductive Cell where
  | null : Cell
  | str (s : String) : Cell
  | num (q : ℚ) : Cell
  deriving DecidableEq

/-- Python exception taxonomy actually reachable in the two scripts. -/
inductive PyError where
  | fileNotFound (msg : String) : PyError
  | keyError (col : String) : PyError
  | valueError (msg : String) : PyError
  | exception (msg : String) : PyError
  deriving DecidableEq

instance {ε α : Type} [DecidableEq ε] [DecidableEq α] : DecidableEq (Except ε α) :=
  fun a b =>
    match a, b with
    | .ok x, .ok y =>
      if h : x = y then isTrue (by rw [h]) else isFalse (fun hc => by cases hc; exact h rfl)
    | .error e, .error f =>
      if h : e = f then isTrue (by rw [h]) else isFalse (fun hc => by cases hc; exact h rfl)
    | .ok _, .error _ => isFalse (fun hc => by cases hc)
    | .error _, .ok _ => isFalse (fun hc => by cases hc)

/-- Row of a raw per-year spreadsheet.  A field is only meaningful when the
corresponding column-presence flag of its `RawFile` is set. -/
structure RawRow where
  occCode : Cell
  occTitle : Cell
  occGroup : Cell
  totEmp : Cell
  deriving DecidableEq

/-- Raw per-year spreadsheet: which of the relevant columns exist, plus rows.
`hasOGroup` is the alternate spelling `O_GROUP` of the group-label column,
`hasOccGroup` the canonical `OCC_GROUP`; `occGroup` of a row is the value
under whichever of the two exists. -/
structure RawFile where
  hasCode : Bool
  hasTitle : Bool
  hasOGroup : Bool
  hasOccGroup : Bool
  hasEmp : Bool
  rows : List RawRow
  deriving DecidableEq

/-- Row of the unified table: the `Year` tag (always present, the loader assigns
it) plus the four projected columns, null when the source column was absent. -/
structure URow where
  year : Int
  occCode : Cell
  occTitle : Cell
  occGroup : Cell
  totEmp : Cell
  deriving DecidableEq

/-- Unified table with column-presence flags (the `Year` column always exists). -/
structure UTable where
  hasCode : Bool
  hasTitle : Bool
  hasGroup : Bool
  hasEmp : Bool
  rows : List URow
  deriving DecidableEq

/-- Years requested by both scripts: `list(range(2015, 2025))`. -/
def years : List Int := [2015, 2016, 2017, 2018, 2019, 2020, 2021, 2022, 2023, 2024]

/-- Per-year filename `os.path.join("base_dados", f"national_M{year}_dl.xlsx")`. -/
def fileNameOf (y : Int) : String :=
  "base_dados/national_M" ++ toString y ++ "_dl.xlsx"

/-- Loader normalization for one year, `src/app.py` lines 40-50 (identical in
`src/regressao.py` lines 33-47): tag every row with the year, rename `O_GROUP`
to `OCC_GROUP` when present, and keep only the expected columns that exist
(values of absent columns are therefore NaN after `pd.concat`). -/
def standardizeFile (y : Int) (f : RawFile) : UTable :=
  { hasCode := f.hasCode
    hasTitle := f.hasTitle
    hasGroup := f.hasOccGroup || f.hasOGroup
    hasEmp := f.hasEmp
    rows := f.rows.map (fun r =>
      { year := y
        occCode := if f.hasCode then r.occCode else Cell.null
        occTitle := if f.hasTitle then r.occTitle else Cell.null
        occGroup := if f.hasOccGroup || f.hasOGroup then r.occGroup else Cell.null
        totEmp := if f.hasEmp then r.totEmp else Cell.null }) }

/-- Filesystem abstraction: which year files exist and their content. -/
def FileSystem : Type := Int → Option RawFile

/-- Load one year in `src/app.py` (lines 37-58): a missing file raises
`FileNotFoundError` naming the path; a present file is standardized. -/
def loadYearApp (fs : FileSystem) (y : Int) : Except PyError UTable :=
  match fs y with
  | none => Except.error (PyError.fileNotFound
      ("Arquivo nao encontrado: " ++ fileNameOf y ++ ". Verifique a pasta base_dados."))
  | some f => Except.ok (standardizeFile y f)

/-- Effectful map that stops at the first raised exception, like the Python
`for` loop over years. -/
def exceptMapM {α β : Type} (f : α → Except PyError β) : List α → Except PyError (List β)
  | [] => Except.ok []
  | a :: l =>
    match f a with
    | .error e => Except.error e
    | .ok b =>
      match exceptMapM f l with
      | .error e => Except.error e
      | .ok bs => Except.ok (b :: bs)

/-- Loader loop of `src/app.py`: abort on the first missing file. -/
def loadAllApp (fs : FileSystem) : Except PyError (List UTable) :=
  exceptMapM (loadYearApp fs) years

/-- Loader loop of `src/regressao.py` (lines 30-55): a missing file only prints
a warning (`AVISO: Arquivo nao encontrado...`) and the year is skipped; the
loop itself never raises. -/
def loadAllReg (fs : FileSystem) : List UTable :=
  years.filterMap (fun y => (fs y).map (standardizeFile y))

/-- Concatenation `pd.concat(all_dfs, ignore_index=True)`: union of the columns,
rows in file order (rows from a frame lacking a column already carry NaN there,
see `standardizeFile`). -/
def concatTables (ts : List UTable) : UTable :=
  { hasCode := ts.any (fun t => t.hasCode)
    hasTitle := ts.any (fun t => t.hasTitle)
    hasGroup := ts.any (fun t => t.hasGroup)
    hasEmp := ts.any (fun t => t.hasEmp)
    rows := (ts.map (fun t => t.rows)).flatten }

/-- Digit value of a character, `none` when it is not a decimal digit. -/
def digitVal (c : Char) : Option Nat :=
  if c.isDigit then some (c.toNat - 48) else none

/-- Parse a nonempty all-digit character list to its value. -/
def parseNatDigits (cs : List Char) : Option Nat :=
  if cs.isEmpty then none
  else cs.foldl (fun acc c =>
    match acc, digitVal c with
    | some n, some d => some (n * 10 + d)
    | _, _ => none) (some 0)

/-- Parse an unsigned numeral `digits` or `digits.digits`. -/
def parseUnsigned (cs : List Char) : Option ℚ :=
  match cs.span (fun c => c.isDigit) with
  | (intPart, rest) =>
    match rest with
    | [] => (parseNatDigits intPart).map (fun n => (n : ℚ))
    | '.' :: frac =>
      match parseNatDigits intPart, parseNatDigits frac with
      | some n, some m => some ((n : ℚ) + (m : ℚ) / ((10 : ℚ) ^ frac.length))
      | _, _ => none
    | _ => none

/-- Numeral grammar of `pd.to_numeric` as far as the claims touch it: optional
sign, digits, optional fractional part.  Tokens such as `#` or `*` (the agency
suppression markers named in the source comments) do not parse. -/
def parseNumToken (s : String) : Option ℚ :=
  match s.toList with
  | '-' :: rest => (parseUnsigned rest).map (fun q => -q)
  | '+' :: rest => parseUnsigned rest
  | cs => parseUnsigned cs

/-- Cell-level behavior of `pd.to_numeric(full_data["TOT_EMP"], errors="coerce")`
(`src/app.py` line 68, `src/regressao.py` line 67): numbers pass through,
parseable strings become numbers, everything else becomes NaN.  It is a total
function: with `errors="coerce"` no input value raises. -/
def to_numeric_coerce (c : Cell) : Cell :=
  match c with
  | Cell.num q => Cell.num q
  | Cell.null => Cell.null
  | Cell.str s =>
    match parseNumToken s with
    | some q => Cell.num q
    | none => Cell.null

/-- Column assignment `full_data["TOT_EMP"] = pd.to_numeric(full_data["TOT_EMP"], ...)`:
reading the column raises `KeyError` when it is absent from the concatenated
table; otherwise every cell is coerced. -/
def coerceEmpColumn (t : UTable) : Except PyError UTable :=
  if t.hasEmp then
    Except.ok { t with rows := t.rows.map (fun r => { r with totEmp := to_numeric_coerce r.totEmp }) }
  else Except.error (PyError.keyError "TOT_EMP")

/-- Filter `full_data[full_data["OCC_GROUP"] == "detailed"]`: reading the column
raises `KeyError` when absent; otherwise keep exactly the rows whose group label
is the string "detailed" (NaN compares unequal). -/
def filterDetailed (t : UTable) : Except PyError UTable :=
  if t.hasGroup then
    Except.ok { t with rows := t.rows.filter (fun r => r.occGroup == Cell.str "detailed") }
  else Except.error (PyError.keyError "OCC_GROUP")

/-- Fatal diagnostic of `src/app.py` line 61. -/
def noDataMsg : String := "Nenhum dado foi carregado. A pasta base_dados esta vazia ou os arquivos estao nomeados incorretamente."

/-- Fatal diagnostic of `src/app.py` line 74. -/
def noDetailedMsg : String := "Nenhum dado detailed encontrado. Verifique os arquivos."

/-- Aggregation stage of `src/app.py` (lines 60-74): empty-load check, concat,
numeric coercion of `TOT_EMP`, filter to detailed rows, empty-filter check. -/
def aggregateApp (ts : List UTable) : Except PyError UTable :=
  if ts.isEmpty then Except.error (PyError.exception noDataMsg)
  else
    match coerceEmpColumn (concatTables ts) with
    | .error e => Except.error e
    | .ok t =>
      match filterDetailed t with
      | .error e => Except.error e
      | .ok t =>
        if t.rows.isEmpty then Except.error (PyError.exception noDetailedMsg)
        else Except.ok t

/-- Validity used by `group.dropna(subset=["Year", "TOT_EMP"])`: the `Year` tag
is never null, so a row survives exactly when its employment is numeric. -/
def isValidRow (r : URow) : Bool :=
  match r.totEmp with
  | Cell.num _ => true
  | _ => false

/-- Numeric value of a (valid) employment cell. -/
def empVal (r : URow) : ℚ :=
  match r.totEmp with
  | Cell.num q => q
  | _ => 0

/-- Truncation toward zero, the semantics of `numpy` float-to-`int64` casts
(`astype(np.int64)`, `src/app.py` lines 86-87). -/
def truncQ (q : ℚ) : Int := Int.tdiv q.num (q.den : Int)

/-- Sum of a list of rationals. -/
def sumQ (l : List ℚ) : ℚ := l.foldr (fun a b => a + b) 0

/-- Ordinary-least-squares slope of y against x,
`(n*Σxy - Σx*Σy) / (n*Σxx - (Σx)^2)`, the closed form `scipy.stats.linregress`
computes (as `ssxym / ssxm` over centered sums). -/
def olsSlope (xs ys : List ℚ) : ℚ :=
  let n : ℚ := xs.length
  (n * sumQ (List.zipWith (fun a b => a * b) xs ys) - sumQ xs * sumQ ys) /
    (n * sumQ (List.zipWith (fun a b => a * b) xs xs) - sumQ xs * sumQ xs)

/-- Test for a constant list, the `np.amax(x) == np.amin(x)` guard of
`scipy.stats.linregress`. -/
def allEqualInt : List Int → Bool
  | [] => true
  | x :: xs => xs.all (fun a => a == x)

/-- Message of the `ValueError` raised by `scipy.stats.linregress` when the
regressor is constant. -/
def scipyIdenticalMsg : String :=
  "Cannot calculate a linear regression if all x values are identical"

/-- Trend estimator of `src/app.py` (`calculate_slope`, lines 77-90): drop rows
with null employment, return NaN (modelled `none`) below 2 points, cast years
and employment to `int64`, then `linregress`, which raises `ValueError` on a
constant regressor and otherwise returns the OLS slope. -/
def calculate_slope_app (g : List URow) : Except PyError (Option ℚ) :=
  let g2 := g.filter isValidRow
  if g2.length < 2 then Except.ok none
  else
    let xs := g2.map (fun r => r.year)
    if allEqualInt xs then Except.error (PyError.valueError scipyIdenticalMsg)
    else Except.ok (some (olsSlope (xs.map (fun x => (x : ℚ)))
      (g2.map (fun r => (truncQ (empVal r) : ℚ)))))

/-- Trend estimator of `src/regressao.py` (`calculate_slope`, lines 81-98):
identical to the `app.py` version except that `linregress` is applied to the
original (untruncated) employment values. -/
def calculate_slope_reg (g : List URow) : Except PyError (Option ℚ) :=
  let g2 := g.filter isValidRow
  if g2.length < 2 then Except.ok none
  else
    let xs := g2.map (fun r => r.year)
    if allEqualInt xs then Except.error (PyError.valueError scipyIdenticalMsg)
    else Except.ok (some (olsSlope (xs.map (fun x => (x : ℚ)))
      (g2.map (fun r => empVal r))))

/-- Lexicographic comparison of strings by character code, the order Python
(and hence pandas group-key sorting) uses on occupation-code strings. -/
def charsLe : List Char → List Char → Bool
  | [], _ => true
  | _ :: _, [] => false
  | a :: as, b :: bs =>
    if a.toNat < b.toNat then true
    else if b.toNat < a.toNat then false
    else charsLe as bs

/-- Total comparison on cells used to sort group keys (real group keys are
always strings; the remaining cases only make the order total). -/
def cellLe (a b : Cell) : Bool :=
  match a, b with
  | Cell.null, _ => true
  | Cell.str _, Cell.null => false
  | Cell.str s, Cell.str t => charsLe s.toList t.toList
  | Cell.str _, Cell.num _ => true
  | Cell.num p, Cell.num q => decide (p ≤ q)
  | Cell.num _, _ => false

/-- Insertion into a `cellLe`-sorted list. -/
def insertKey (k : Cell) : List Cell → List Cell
  | [] => [k]
  | x :: xs => if cellLe k x then k :: x :: xs else x :: insertKey k xs

/-- Insertion sort of group keys. -/
def sortKeys (l : List Cell) : List Cell := l.foldr insertKey []

/-- Group keys of `groupby("OCC_CODE")`: the distinct non-null occupation codes,
in sorted order (pandas `groupby` defaults: `dropna=True`, `sort=True`). -/
def groupKeys (t : UTable) : List Cell :=
  sortKeys ((t.rows.filterMap (fun r =>
    if r.occCode == Cell.null then none else some r.occCode)).dedup)

/-- Rows of one `groupby("OCC_CODE")` group, in table order. -/
def groupRows (t : UTable) (k : Cell) : List URow :=
  t.rows.filter (fun r => r.occCode == k)

/-- Per-key slope application `groupby("OCC_CODE").apply(calculate_slope)`:
an exception raised inside any group propagates out of `apply`. -/
def slopesFor (t : UTable) (slopeFn : List URow → Except PyError (Option ℚ))
    (ks : List Cell) : Except PyError (List (Cell × Option ℚ)) :=
  exceptMapM (fun k =>
    match slopeFn (groupRows t k) with
    | .error e => Except.error e
    | .ok s => Except.ok (k, s)) ks

/-- Most recent title of a code, `groupby("OCC_CODE")["OCC_TITLE"].last()`
(`src/app.py` line 98): the last non-null title inside the group, NaN when
every title in the group is null. -/
def lastTitle (t : UTable) (k : Cell) : Cell :=
  ((((groupRows t k).map (fun r => r.occTitle)).filter
    (fun c => !(c == Cell.null))).getLast?).getD Cell.null

/-- Title join table `job_names` of `src/app.py` line 98. -/
def jobNames (t : UTable) : List (Cell × Cell) :=
  (groupKeys t).map (fun k => (k, lastTitle t k))

/-- First-match association lookup (join on a key column). -/
def lookupAssoc (l : List (Cell × Cell)) (k : Cell) : Option Cell :=
  (l.find? (fun p => p.1 == k)).map (fun p => p.2)

/-- Row of the joined trends table before ranking. -/
structure TRow where
  occCode : Cell
  slope : ℚ
  occTitle : Cell
  deriving DecidableEq

/-- Row of the final ranked table. -/
structure RankedRow where
  occCode : Cell
  slope : ℚ
  occTitle : Cell
  rank : Nat
  deriving DecidableEq

/-- Descending-by-slope order used by `sort_values(by="slope", ascending=False)`. -/
def slopeGE (a b : TRow) : Prop := b.slope ≤ a.slope

instance : DecidableRel slopeGE :=
  fun a b => inferInstanceAs (Decidable (b.slope ≤ a.slope))

instance : IsTotal TRow slopeGE := ⟨fun a b => le_total b.slope a.slope⟩

instance : IsTrans TRow slopeGE := ⟨fun _ _ _ h1 h2 => le_trans h2 h1⟩

/-- Sort of the joined table by slope descending. -/
def sortDesc (l : List TRow) : List TRow := List.insertionSort slopeGE l

/-- Rank assignment `final_results["Rank"] = final_results.index + 1` after
`reset_index(drop=True)`: position in the sorted order, 1-based. -/
def addRanksFrom : List TRow → Nat → List RankedRow
  | [], _ => []
  | r :: rs, i => ⟨r.occCode, r.slope, r.occTitle, i + 1⟩ :: addRanksFrom rs (i + 1)

/-- Ranked table from the sorted joined table. -/
def addRanks (l : List TRow) : List RankedRow := addRanksFrom l 0

/-- Inner join `pd.merge(trends_df, job_names, on="OCC_CODE")`: both inputs are
keyed by the same `groupby` keys, so each surviving trends row is joined with
the unique `job_names` entry of its key, left order preserved. -/
def mergeTitles (t : UTable) (trendsDf : List (Cell × ℚ)) : List TRow :=
  trendsDf.filterMap (fun p =>
    (lookupAssoc (jobNames t) p.1).map (fun c => TRow.mk p.1 p.2 c))

/-- Ranking stage of `src/app.py` (lines 92-104): group by occupation code
(`KeyError` when the column is absent), apply the trend estimator, drop null
slopes, join the most recent titles (`KeyError` when the title column is
absent), sort by slope descending, assign 1-based ranks. -/
def rankFrom (t : UTable) : Except PyError (List RankedRow) :=
  if t.hasCode = false then Except.error (PyError.keyError "OCC_CODE")
  else
    match slopesFor t calculate_slope_app (groupKeys t) with
    | .error e => Except.error e
    | .ok trends =>
      if t.hasTitle = false then Except.error (PyError.keyError "OCC_TITLE")
      else
        Except.ok (addRanks (sortDesc (mergeTitles t
          (trends.filterMap (fun p => p.2.map (fun s => (p.1, s)))))))

/-- Full pipeline of `src/app.py` (`load_and_process_data`, lines 22-107):
returns the ranked table together with the filtered detailed-level table
(used for per-occupation charting). -/
def load_and_process_data (fs : FileSystem) : Except PyError (List RankedRow × UTable) :=
  match loadAllApp fs with
  | .error e => Except.error e
  | .ok ts =>
    match aggregateApp ts with
    | .error e => Except.error e
    | .ok d =>
      match rankFrom d with
      | .error e => Except.error e
      | .ok r => Except.ok (r, d)

/-- Full pipeline of `src/regressao.py` (`analyze_job_trends`, lines 6-122):
lenient loader (missing years are skipped with a console warning), then the
same aggregation and estimation; the script has no `Rank` column and prints the
head of the slope-sorted joined table, modelled here as returning that sorted
table.  `none` models the early `return` paths (nothing loaded, no detailed
rows), which print a diagnostic and end the run without raising. -/
def analyze_job_trends (fs : FileSystem) : Except PyError (Option (List TRow)) :=
  match loadAllReg fs with
  | [] => Except.ok none
  | t0 :: ts =>
    match coerceEmpColumn (concatTables (t0 :: ts)) with
    | .error e => Except.error e
    | .ok t =>
      match filterDetailed t with
      | .error e => Except.error e
      | .ok t =>
        if t.rows.isEmpty then Except.ok none
        else if t.hasCode = false then Except.error (PyError.keyError "OCC_CODE")
        else
          match slopesFor t calculate_slope_reg (groupKeys t) with
          | .error e => Except.error e
          | .ok trends =>
            if t.hasTitle = false then Except.error (PyError.keyError "OCC_TITLE")
            else
              Except.ok (some (sortDesc (mergeTitles t
                (trends.filterMap (fun p => p.2.map (fun s => (p.1, s)))))))

/-- Year order on unified rows (chronological order of the concatenated table). -/
def yearLe (a b : URow) : Prop := a.year ≤ b.year

/-- Integer rational with trivial denominator, written as an explicit structure
so that kernel evaluation of cell equality never has to normalize. -/
def mkIntQ (n : Int) : ℚ := ⟨n, 1, one_ne_zero, Nat.coprime_one_right _⟩

/-- Concrete one half, used by the fractional-employment series. -/
def halfQ : ℚ := ⟨1, 2, two_ne_zero, Nat.coprime_one_left 2⟩

/-- Synthetic spreadsheet row for occupation "X" (end-to-end scenario). -/
def rowX (emp : Int) : RawRow :=
  ⟨Cell.str "X", Cell.str "Occupation X", Cell.str "detailed", Cell.num (mkIntQ emp)⟩

/-- Synthetic one-row year file for occupation "X", canonical column names. -/
def fileX (emp : Int) : RawFile :=
  ⟨true, true, false, true, true, [rowX emp]⟩

/-- Year file with zero rows and no recognized columns (a year contributing no
occupations). -/
def emptyFile : RawFile :=
  ⟨false, false, false, false, false, []⟩

/-- Filesystem of the end-to-end scenario: occupation "X" with employment 100
in 2015, 110 in 2016, 120 in 2017, and no other occupations in any year. -/
def fs8 : FileSystem := fun y =>
  if y = 2015 then some (fileX 100)
  else if y = 2016 then some (fileX 110)
  else if y = 2017 then some (fileX 120)
  else some emptyFile

/-- Unified detailed-level row of the end-to-end scenario. -/
def u8 (y emp : Int) : URow :=
  ⟨y, Cell.str "X", Cell.str "Occupation X", Cell.str "detailed", Cell.num (mkIntQ emp)⟩

/-- Detailed-level table the end-to-end scenario aggregates to. -/
def d8 : UTable :=
  ⟨true, true, true, true, [u8 2015 100, u8 2016 110, u8 2017 120]⟩

/-- Filesystem on which `regressao.py` still produces a ranking even though the
file of requested year 2015 (and of 2018..2024) does not exist. -/
def fsC1 : FileSystem := fun y =>
  if y = 2016 then some (fileX 100)
  else if y = 2017 then some (fileX 130)
  else none

/-- Filesystem with every year file missing. -/
def fsNone : FileSystem := fun _ => none

/-- Two-occupation table: "A" grows by 2 per year, "B" is constant. -/
def tW2 : UTable :=
  ⟨true, true, true, true,
    [⟨2015, Cell.str "A", Cell.str "Alpha", Cell.str "detailed", Cell.num (mkIntQ 1)⟩,
     ⟨2015, Cell.str "B", Cell.str "Beta", Cell.str "detailed", Cell.num (mkIntQ 5)⟩,
     ⟨2016, Cell.str "A", Cell.str "Alpha", Cell.str "detailed", Cell.num (mkIntQ 3)⟩,
     ⟨2016, Cell.str "B", Cell.str "Beta", Cell.str "detailed", Cell.num (mkIntQ 5)⟩]⟩

/-- One-row table: occupation "A" appears in a single year only. -/
def t4 : UTable :=
  ⟨true, true, true, true,
    [⟨2015, Cell.str "A", Cell.str "Alpha", Cell.str "detailed", Cell.num (mkIntQ 7)⟩]⟩

/-- Group with two valid records sharing one year (zero year variance). -/
def g5 : List URow :=
  [⟨2015, Cell.str "A", Cell.null, Cell.str "detailed", Cell.num (mkIntQ 100)⟩,
   ⟨2015, Cell.str "A", Cell.null, Cell.str "detailed", Cell.num (mkIntQ 110)⟩]

/-- Series with a fractional employment value (1/2 in 2015, 0 in 2016). -/
def gFrac : List URow :=
  [⟨2015, Cell.str "F", Cell.null, Cell.str "detailed", Cell.num halfQ⟩,
   ⟨2016, Cell.str "F", Cell.null, Cell.str "detailed", Cell.num (mkIntQ 0)⟩]

/-- Series whose employment values are all integral. -/
def gInt : List URow :=
  [⟨2015, Cell.str "I", Cell.null, Cell.str "detailed", Cell.num (mkIntQ 100)⟩,
   ⟨2016, Cell.str "I", Cell.null, Cell.str "detailed", Cell.num (mkIntQ 90)⟩]

/-- Year file that has neither `OCC_GROUP` nor `O_GROUP` but has `TOT_EMP`. -/
def fileNoGroup : RawFile :=
  ⟨true, true, false, false, true, [⟨Cell.str "X", Cell.str "T", Cell.null, Cell.num (mkIntQ 5)⟩]⟩

/-- Filesystem in which every year lacks the group-label column. -/
def fs10a : FileSystem := fun _ => some fileNoGroup

/-- Year file that lacks `TOT_EMP`. -/
def fileNoEmp : RawFile :=
  ⟨true, true, false, true, false, [⟨Cell.str "X", Cell.str "T", Cell.str "detailed", Cell.null⟩]⟩

/-- Filesystem in which every year lacks the employment column. -/
def fs10b : FileSystem := fun _ => some fileNoEmp

/-- Standardized one-row year table of occupation "X". -/
def tX (y emp : Int) : UTable := ⟨true, true, true, true, [u8 y emp]⟩

/-- Standardized empty year table. -/
def tE : UTable := ⟨false, false, false, false, []⟩

/-- Detailed table the lenient pipeline builds from `fsC1`. -/
def dC1 : UTable := ⟨true, true, true, true, [u8 2016 100, u8 2017 130]⟩

/-- Value of the explicit integer rational. -/
theorem mkIntQ_eq (n : Int) : mkIntQ n = (n : ℚ) := by
  refine Rat.ext ?_ ?_
  · simp [mkIntQ, Rat.num_intCast]
  · simp [mkIntQ, Rat.den_intCast]

/-- Value of the explicit one half. -/
theorem halfQ_eq : halfQ = 1 / 2 := by
  rw [halfQ, Rat.mk'_eq_divInt, Rat.divInt_eq_div]
  norm_num

/-- Truncation is the identity on integer rationals. -/
theorem truncQ_mkIntQ (n : Int) : truncQ (mkIntQ n) = n := by
  simp [truncQ, mkIntQ, Int.tdiv_one]

/-- Rationals with denominator one are their own numerator cast. -/
theorem intCast_num_of_den_one (q : ℚ) (h : q.den = 1) : (q.num : ℚ) = q := by
  refine Rat.ext ?_ ?_
  · simp [Rat.num_intCast]
  · simp [Rat.den_intCast, h]

/-- Truncation toward zero does not move an integral rational. -/
theorem truncQ_cast_of_den_one (q : ℚ) (h : q.den = 1) : (truncQ q : ℚ) = q := by
  rw [truncQ, h]
  simp only [Nat.cast_one, Int.tdiv_one]
  exact intCast_num_of_den_one q h

/-- Success of the effectful map relates input and output elementwise. -/
theorem exceptMapM_ok_forall₂ {α β : Type} (f : α → Except PyError β) :
    ∀ {l : List α} {ts : List β}, exceptMapM f l = Except.ok ts →
      List.Forall₂ (fun a b => f a = Except.ok b) l ts := by
  intro l
  induction l with
  | nil =>
    intro ts h
    rw [exceptMapM] at h
    cases h
    exact List.Forall₂.nil
  | cons a l ih =>
    intro ts h
    rw [exceptMapM] at h
    cases hfa : f a with
    | error e => rw [hfa] at h; cases h
    | ok b =>
      rw [hfa] at h
      cases hrec : exceptMapM f l with
      | error e => rw [hrec] at h; cases h
      | ok bs =>
        rw [hrec] at h
        cases h
        exact List.Forall₂.cons hfa (ih hrec)

/-- Failure of the effectful map comes from some element. -/
theorem exceptMapM_error_mem {α β : Type} (f : α → Except PyError β) :
    ∀ {l : List α} {e : PyError}, exceptMapM f l = Except.error e →
      ∃ a ∈ l, f a = Except.error e := by
  intro l
  induction l with
  | nil =>
    intro e h
    rw [exceptMapM] at h
    cases h
  | cons a l ih =>
    intro e h
    rw [exceptMapM] at h
    cases hfa : f a with
    | error e2 =>
      rw [hfa] at h
      cases h
      exact ⟨a, List.mem_cons_self a l, hfa⟩
    | ok b =>
      rw [hfa] at h
      cases hrec : exceptMapM f l with
      | error e2 =>
        rw [hrec] at h
        cases h
        obtain ⟨a2, ha2, hfa2⟩ := ih hrec
        exact ⟨a2, List.mem_cons_of_mem a ha2, hfa2⟩
      | ok bs => rw [hrec] at h; cases h

/-- Loader loop of `app.py`: when some requested year has no file, the loop
raises `FileNotFoundError` for such a year (the first missing one). -/
theorem exceptMapM_first_missing (fs : FileSystem) :
    ∀ l : List Int, (∃ y ∈ l, fs y = none) →
      ∃ y ∈ l, fs y = none ∧ exceptMapM (loadYearApp fs) l =
        Except.error (PyError.fileNotFound
          ("Arquivo nao encontrado: " ++ fileNameOf y ++ ". Verifique a pasta base_dados.")) := by
  intro l
  induction l with
  | nil =>
    rintro ⟨y, hy, _⟩
    cases hy
  | cons a l ih =>
    rintro ⟨y, hy, hnone⟩
    cases hfa : fs a with
    | none =>
      refine ⟨a, List.mem_cons_self a l, hfa, ?_⟩
      rw [exceptMapM, loadYearApp, hfa]
    | some f =>
      have hyl : y ∈ l := by
        rcases List.mem_cons.mp hy with h | h
        · rw [h] at hnone; rw [hnone] at hfa; cases hfa
        · exact h
      obtain ⟨y2, hy2, hn2, heq⟩ := ih ⟨y, hyl, hnone⟩
      refine ⟨y2, List.mem_cons_of_mem a hy2, hn2, ?_⟩
      rw [exceptMapM, loadYearApp, hfa, heq]

/-- An element of the right list of a `Forall₂` has a related partner. -/
theorem forall₂_mem_right {α β : Type} {P : α → β → Prop} :
    ∀ {l : List α} {res : List β}, List.Forall₂ P l res →
      ∀ b ∈ res, ∃ a ∈ l, P a b := by
  intro l res h
  induction h with
  | nil => intro b hb; cases hb
  | cons ha _ ih =>
    intro b hb
    rcases List.mem_cons.mp hb with h | h
    · exact ⟨_, List.mem_cons_self _ _, h ▸ ha⟩
    · obtain ⟨a2, ha2, hP⟩ := ih b h
      exact ⟨a2, List.mem_cons_of_mem _ ha2, hP⟩

/-- Rank assignment preserves the number of rows. -/
theorem addRanksFrom_length : ∀ (l : List TRow) (i : Nat),
    (addRanksFrom l i).length = l.length := by
  intro l
  induction l with
  | nil => intro i; rfl
  | cons r rs ih => intro i; simp [addRanksFrom, ih]

/-- Rank assignment keeps every row in place and stamps its position. -/
theorem addRanksFrom_getElem : ∀ (l : List TRow) (i j : Nat) (hj : j < l.length)
    (hj2 : j < (addRanksFrom l i).length),
    (addRanksFrom l i)[j] = ⟨l[j].occCode, l[j].slope, l[j].occTitle, i + j + 1⟩ := by
  intro l
  induction l with
  | nil => intro i j hj _; cases hj
  | cons r rs ih =>
    intro i j hj hj2
    cases j with
    | zero => rfl
    | succ j =>
      have hj3 : j < rs.length := Nat.lt_of_succ_lt_succ hj
      have hj4 : j < (addRanksFrom rs (i + 1)).length := by
        rw [addRanksFrom_length]; exact hj3
      show (addRanksFrom rs (i + 1))[j] = _
      rw [ih (i + 1) j hj3 hj4]
      simp only [List.getElem_cons_succ]
      congr 1
      omega

/-- Every ranked row carries over the fields of some joined row. -/
theorem mem_addRanksFrom : ∀ {l : List TRow} {i : Nat} {row : RankedRow},
    row ∈ addRanksFrom l i →
      ∃ tr ∈ l, row.occCode = tr.occCode ∧ row.slope = tr.slope ∧ row.occTitle = tr.occTitle := by
  intro l
  induction l with
  | nil => intro i row h; cases h
  | cons r rs ih =>
    intro i row h
    rcases List.mem_cons.mp h with h | h
    · exact ⟨r, List.mem_cons_self r rs, by rw [h], by rw [h], by rw [h]⟩
    · obtain ⟨tr, htr, h1, h2, h3⟩ := ih h
      exact ⟨tr, List.mem_cons_of_mem r htr, h1, h2, h3⟩

/-- Output of the slope sort is sorted descending. -/
theorem sortDesc_sorted (l : List TRow) : List.Sorted slopeGE (sortDesc l) :=
  List.sorted_insertionSort slopeGE l

/-- Slope sorting permutes the rows and so preserves membership. -/
theorem mem_sortDesc {l : List TRow} {a : TRow} : a ∈ sortDesc l ↔ a ∈ l :=
  List.mem_insertionSort slopeGE

/-- Inversion of a successful `rankFrom` run. -/
theorem rankFrom_ok_elim (t : UTable) (R : List RankedRow)
    (h : rankFrom t = Except.ok R) :
    t.hasCode = true ∧ t.hasTitle = true ∧
      ∃ trends, slopesFor t calculate_slope_app (groupKeys t) = Except.ok trends ∧
        R = addRanks (sortDesc (mergeTitles t
          (trends.filterMap (fun p => p.2.map (fun s => (p.1, s)))))) := by
  rw [rankFrom] at h
  cases hcode : t.hasCode with
  | false => rw [hcode, if_pos rfl] at h; cases h
  | true =>
    rw [hcode, if_neg (by simp)] at h
    cases hsl : slopesFor t calculate_slope_app (groupKeys t) with
    | error e => rw [hsl] at h; cases h
    | ok trends =>
      rw [hsl] at h
      dsimp only at h
      cases htitle : t.hasTitle with
      | false => rw [htitle, if_pos rfl] at h; cases h
      | true =>
        rw [htitle, if_neg (by simp)] at h
        cases h
        exact ⟨rfl, rfl, trends, rfl, rfl⟩

/-- Entries of a successful per-group slope application record the slope the
estimator returned for their key. -/
theorem slopesFor_ok_mem (t : UTable) (fn : List URow → Except PyError (Option ℚ)) :
    ∀ {ks : List Cell} {res : List (Cell × Option ℚ)}, slopesFor t fn ks = Except.ok res →
      ∀ p ∈ res, fn (groupRows t p.1) = Except.ok p.2 := by
  intro ks res h p hp
  have hf := exceptMapM_ok_forall₂ _ h
  obtain ⟨k, _, hk⟩ := forall₂_mem_right hf p hp
  revert hk
  cases hfn : fn (groupRows t k) with
  | error e => intro hk; cases hk
  | ok s =>
    intro hk
    cases hk
    exact hfn

/-- A failing per-group slope application pinpoints a failing group. -/
theorem slopesFor_error {t : UTable} {fn : List URow → Except PyError (Option ℚ)}
    {ks : List Cell} {e : PyError} (h : slopesFor t fn ks = Except.error e) :
    ∃ k ∈ ks, fn (groupRows t k) = Except.error e := by
  obtain ⟨k, hk, hfk⟩ := exceptMapM_error_mem _ h
  refine ⟨k, hk, ?_⟩
  revert hfk
  cases hfn : fn (groupRows t k) with
  | error e2 => intro hfk; cases hfk; exact rfl
  | ok s => intro hfk; cases hfk

/-- Lookup into the title join table yields the most recent title of the key. -/
theorem lookupAssoc_mapped (t : UTable) (k c : Cell) :
    ∀ ks : List Cell,
      lookupAssoc (ks.map (fun x => (x, lastTitle t x))) k = some c →
      c = lastTitle t k := by
  intro ks
  induction ks with
  | nil => intro h; cases h
  | cons x ks ih =>
    intro h
    rw [List.map_cons, lookupAssoc, List.find?] at h
    cases hxk : (x == k) with
    | true =>
      rw [hxk] at h
      cases h
      rw [eq_of_beq hxk]
    | false =>
      rw [hxk] at h
      exact ih h

/-- Each joined row carries the most recent title of its occupation code, and
its code and slope come from the slope table. -/
theorem mem_mergeTitles {t : UTable} {df : List (Cell × ℚ)} {tr : TRow}
    (h : tr ∈ mergeTitles t df) :
    tr.occTitle = lastTitle t tr.occCode ∧ (tr.occCode, tr.slope) ∈ df := by
  rw [mergeTitles] at h
  obtain ⟨p, hp, heq⟩ := List.mem_filterMap.mp h
  revert heq
  cases hl : lookupAssoc (jobNames t) p.1 with
  | none => intro heq; cases heq
  | some c =>
    intro heq
    cases heq
    rw [jobNames] at hl
    refine ⟨lookupAssoc_mapped t p.1 c (groupKeys t) hl, ?_⟩
    simpa using hp

/-- Every row of a standardized year table carries that year tag. -/
theorem standardizeFile_year (y : Int) (f : RawFile) :
    ∀ r ∈ (standardizeFile y f).rows, r.year = y := by
  intro r hr
  rw [standardizeFile] at hr
  obtain ⟨r0, _, heq⟩ := List.mem_map.mp hr
  rw [← heq]

/-- Every row loaded for a year carries that year tag. -/
theorem loadYearApp_year (fs : FileSystem) (y : Int) (t : UTable)
    (h : loadYearApp fs y = Except.ok t) : ∀ r ∈ t.rows, r.year = y := by
  revert h
  rw [loadYearApp]
  cases fs y with
  | none => intro h; cases h
  | some f =>
    intro h
    cases h
    exact standardizeFile_year y f

/-- A list of rows with one common year is chronologically sorted. -/
theorem pairwise_const_year {rows : List URow} {y : Int}
    (h : ∀ r ∈ rows, r.year = y) : rows.Pairwise yearLe := by
  refine List.pairwise_iff_getElem.mpr ?_
  intro i j hi hj _
  have h1 := h _ (List.getElem_mem hi)
  have h2 := h _ (List.getElem_mem hj)
  rw [yearLe, h1, h2]

/-- A row of the concatenated tables carries one of the contributing years. -/
theorem flatten_rows_year {l : List Int} {ts : List UTable}
    (hf : List.Forall₂ (fun y t => ∀ r ∈ t.rows, r.year = y) l ts) :
    ∀ b ∈ (ts.map (fun t => t.rows)).flatten, ∃ y ∈ l, b.year = y := by
  intro b hb
  obtain ⟨rws, hrws, hbr⟩ := List.mem_flatten.mp hb
  obtain ⟨t, ht, heq⟩ := List.mem_map.mp hrws
  obtain ⟨y, hy, hP⟩ := forall₂_mem_right hf t ht
  exact ⟨y, hy, hP b (heq ▸ hbr)⟩

/-- Concatenating per-year tables in nondecreasing year order produces a
chronologically sorted row list. -/
theorem concat_pairwise : ∀ {l : List Int} {ts : List UTable},
    List.Forall₂ (fun y t => ∀ r ∈ t.rows, r.year = y) l ts →
    l.Pairwise (fun a b => a ≤ b) →
    ((ts.map (fun t => t.rows)).flatten).Pairwise yearLe := by
  intro l ts hf
  induction hf with
  | nil => intro _; simp
  | @cons y t l2 ts2 hyt hrest ih =>
    intro hp
    have hp2 := List.pairwise_cons.mp hp
    rw [List.map_cons, List.flatten_cons, List.pairwise_append]
    refine ⟨pairwise_const_year hyt, ih hp2.2, ?_⟩
    intro a ha b hb
    obtain ⟨y2, hy2, hby2⟩ := flatten_rows_year hrest b hb
    rw [yearLe, hyt a ha, hby2]
    exact hp2.1 y2 hy2

/-- Inversion of a successful numeric coercion. -/
theorem coerceEmpColumn_ok_elim (t t1 : UTable) (h : coerceEmpColumn t = Except.ok t1) :
    t.hasEmp = true ∧
      t1 = { t with rows := t.rows.map (fun r => { r with totEmp := to_numeric_coerce r.totEmp }) } := by
  revert h
  rw [coerceEmpColumn]
  cases he : t.hasEmp with
  | false => rw [if_neg (by simp)]; intro h; cases h
  | true =>
    rw [if_pos rfl]
    intro h
    cases h
    exact ⟨rfl, rfl⟩

/-- Inversion of a failing numeric coercion. -/
theorem coerceEmpColumn_error (t : UTable) (e : PyError)
    (h : coerceEmpColumn t = Except.error e) : e = PyError.keyError "TOT_EMP" := by
  revert h
  rw [coerceEmpColumn]
  cases he : t.hasEmp with
  | false => rw [if_neg (by simp)]; intro h; cases h; exact rfl
  | true => rw [if_pos rfl]; intro h; cases h

/-- Inversion of a successful detailed filter. -/
theorem filterDetailed_ok_elim (t t1 : UTable) (h : filterDetailed t = Except.ok t1) :
    t.hasGroup = true ∧
      t1 = { t with rows := t.rows.filter (fun r => r.occGroup == Cell.str "detailed") } := by
  revert h
  rw [filterDetailed]
  cases hg : t.hasGroup with
  | false => rw [if_neg (by simp)]; intro h; cases h
  | true =>
    rw [if_pos rfl]
    intro h
    cases h
    exact ⟨rfl, rfl⟩

/-- Inversion of a failing detailed filter. -/
theorem filterDetailed_error (t : UTable) (e : PyError)
    (h : filterDetailed t = Except.error e) : e = PyError.keyError "OCC_GROUP" := by
  revert h
  rw [filterDetailed]
  cases hg : t.hasGroup with
  | false => rw [if_neg (by simp)]; intro h; cases h; exact rfl
  | true => rw [if_pos rfl]; intro h; cases h

/-- Inversion of a successful aggregation. -/
theorem aggregateApp_ok_elim (ts : List UTable) (d : UTable)
    (h : aggregateApp ts = Except.ok d) :
    ∃ t1, coerceEmpColumn (concatTables ts) = Except.ok t1 ∧
      filterDetailed t1 = Except.ok d ∧ d.rows.isEmpty = false := by
  revert h
  rw [aggregateApp]
  cases hemp : ts.isEmpty with
  | true => rw [if_pos rfl]; intro h; cases h
  | false =>
    rw [if_neg (by simp)]
    cases hc : coerceEmpColumn (concatTables ts) with
    | error e => intro h; cases h
    | ok t1 =>
      dsimp only
      cases hfd : filterDetailed t1 with
      | error e => intro h; cases h
      | ok t2 =>
        dsimp only
        cases hrows : t2.rows.isEmpty with
        | true => rw [if_pos rfl]; intro h; cases h
        | false =>
          rw [if_neg (by simp)]
          intro h
          cases h
          exact ⟨t1, rfl, by rw [hfd], hrows⟩

/-- Inversion of a successful full `app.py` pipeline run. -/
theorem load_ok_elim (fs : FileSystem) (R : List RankedRow) (d : UTable)
    (h : load_and_process_data fs = Except.ok (R, d)) :
    ∃ ts, loadAllApp fs = Except.ok ts ∧ aggregateApp ts = Except.ok d ∧
      rankFrom d = Except.ok R := by
  revert h
  rw [load_and_process_data]
  cases hl : loadAllApp fs with
  | error e => intro h; cases h
  | ok ts =>
    dsimp only
    cases ha : aggregateApp ts with
    | error e => intro h; cases h
    | ok d0 =>
      dsimp only
      cases hr : rankFrom d0 with
      | error e => intro h; cases h
      | ok r0 =>
        dsimp only
        intro h
        cases h
        exact ⟨ts, rfl, ha, hr⟩

/-- Aggregation preserves chronological sortedness of the rows. -/
theorem aggregate_rows_pairwise (ts : List UTable) (d : UTable)
    (h : aggregateApp ts = Except.ok d)
    (hcat : (concatTables ts).rows.Pairwise yearLe) : d.rows.Pairwise yearLe := by
  obtain ⟨t1, hc, hfd, _⟩ := aggregateApp_ok_elim ts d h
  obtain ⟨_, ht1⟩ := coerceEmpColumn_ok_elim _ _ hc
  obtain ⟨_, hd⟩ := filterDetailed_ok_elim _ _ hfd
  rw [hd, ht1]
  refine List.Pairwise.filter _ ?_
  dsimp only
  rw [List.pairwise_map]
  exact hcat.imp (fun h => h)

/-- The detailed table a successful `app.py` run returns is chronologically
sorted: the loader tags each file with its year and the years are requested in
increasing order. -/
theorem pipeline_detailed_sorted (fs : FileSystem) (R : List RankedRow) (d : UTable)
    (h : load_and_process_data fs = Except.ok (R, d)) : d.rows.Pairwise yearLe := by
  obtain ⟨ts, hl, ha, _⟩ := load_ok_elim fs R d h
  have hf : List.Forall₂ (fun y t => ∀ r ∈ t.rows, r.year = y) years ts :=
    (exceptMapM_ok_forall₂ _ hl).imp (fun a b hab => loadYearApp_year fs a b hab)
  have hcat : (concatTables ts).rows.Pairwise yearLe :=
    concat_pairwise hf (by decide)
  exact aggregate_rows_pairwise ts d ha hcat

/-- In a chronologically sorted list, the last element has maximal year. -/
theorem pairwise_le_getLast? : ∀ {l : List URow} {r : URow}, l.Pairwise yearLe →
    l.getLast? = some r → ∀ r2 ∈ l, r2.year ≤ r.year := by
  intro l
  induction l with
  | nil => intro r _ h; cases h
  | cons a l ih =>
    intro r hp hlast r2 hr2
    cases l with
    | nil =>
      rw [List.getLast?_singleton] at hlast
      cases hlast
      have : r2 = a := by simpa using hr2
      rw [this]
    | cons b l2 =>
      rw [List.getLast?_cons_cons] at hlast
      have hp2 := List.pairwise_cons.mp hp
      rcases List.mem_cons.mp hr2 with h | h
      · rw [h]
        exact hp2.1 r (List.mem_of_getLast?_eq_some hlast)
      · exact ih hp2.2 hlast r2 h

/-- Grouping preserves chronological sortedness. -/
theorem groupRows_pairwise (t : UTable) (k : Cell) (h : t.rows.Pairwise yearLe) :
    (groupRows t k).Pairwise yearLe :=
  List.Pairwise.filter _ h

/-- Characterization of the most recent title: when some record of the group
has a non-null title, `lastTitle` returns the title of the last such record,
which has maximal year among them whenever the group is chronologically
sorted. -/
theorem lastTitle_spec (t : UTable) (k : Cell)
    (hsort : (groupRows t k).Pairwise yearLe)
    (hex : ∃ r ∈ groupRows t k, r.occTitle ≠ Cell.null) :
    ∃ r ∈ groupRows t k, r.occTitle ≠ Cell.null ∧ lastTitle t k = r.occTitle ∧
      ∀ r2 ∈ groupRows t k, r2.occTitle ≠ Cell.null → r2.year ≤ r.year := by
  obtain ⟨r0, hr0, hr0t⟩ := hex
  have hr0G : r0 ∈ (groupRows t k).filter (fun r => !(r.occTitle == Cell.null)) := by
    rw [List.mem_filter]
    exact ⟨hr0, by simpa using hr0t⟩
  have hGne : (groupRows t k).filter (fun r => !(r.occTitle == Cell.null)) ≠ [] :=
    List.ne_nil_of_mem hr0G
  cases hlast : ((groupRows t k).filter (fun r => !(r.occTitle == Cell.null))).getLast? with
  | none =>
    rw [List.getLast?_eq_getLast _ hGne] at hlast
    cases hlast
  | some r =>
    have hrG : r ∈ (groupRows t k).filter (fun r => !(r.occTitle == Cell.null)) :=
      List.mem_of_getLast?_eq_some hlast
    have hrmem := (List.mem_filter.mp hrG).1
    have hrt : r.occTitle ≠ Cell.null := by
      have := (List.mem_filter.mp hrG).2
      simpa using this
    refine ⟨r, hrmem, hrt, ?_, ?_⟩
    · rw [lastTitle, List.filter_map]
      have hcomp : (groupRows t k).filter
          ((fun c => !(c == Cell.null)) ∘ fun r => r.occTitle) =
          (groupRows t k).filter (fun r => !(r.occTitle == Cell.null)) := rfl
      rw [hcomp, List.getLast?_map, hlast]
      rfl
    · intro r2 hr2 hr2t
      have hr2G : r2 ∈ (groupRows t k).filter (fun r => !(r.occTitle == Cell.null)) := by
        rw [List.mem_filter]
        exact ⟨hr2, by simpa using hr2t⟩
      exact pairwise_le_getLast? (List.Pairwise.filter _ hsort) hlast r2 hr2G

/-- Below two valid records the `app.py` estimator returns NaN, not an error. -/
theorem calculate_slope_app_short (g : List URow)
    (h : (g.filter isValidRow).length < 2) :
    calculate_slope_app g = Except.ok none := by
  simp only [calculate_slope_app]
  rw [if_pos h]

/-- Below two valid records the `regressao.py` estimator returns NaN. -/
theorem calculate_slope_reg_short (g : List URow)
    (h : (g.filter isValidRow).length < 2) :
    calculate_slope_reg g = Except.ok none := by
  simp only [calculate_slope_reg]
  rw [if_pos h]

/-- With at least two valid records all in one year, the `app.py` estimator
raises the `linregress` `ValueError`. -/
theorem calculate_slope_app_identical (g : List URow)
    (h2 : ¬(g.filter isValidRow).length < 2)
    (heq : allEqualInt ((g.filter isValidRow).map (fun r => r.year)) = true) :
    calculate_slope_app g = Except.error (PyError.valueError scipyIdenticalMsg) := by
  simp only [calculate_slope_app]
  rw [if_neg h2, if_pos heq]

/-- The only exception the `regressao.py` estimator can raise is the
`linregress` `ValueError` for a constant regressor. -/
theorem calculate_slope_reg_error (g : List URow) (e : PyError)
    (h : calculate_slope_reg g = Except.error e) :
    e = PyError.valueError scipyIdenticalMsg := by
  simp only [calculate_slope_reg] at h
  split at h
  · cases h
  · split at h
    · cases h
      exact rfl
    · cases h

/-- The only exception the `app.py` estimator can raise is the `linregress`
`ValueError` for a constant regressor. -/
theorem calculate_slope_app_error (g : List URow) (e : PyError)
    (h : calculate_slope_app g = Except.error e) :
    e = PyError.valueError scipyIdenticalMsg := by
  simp only [calculate_slope_app] at h
  split at h
  · cases h
  · split at h
    · cases h
      exact rfl
    · cases h

/-- The `regressao.py` pipeline never raises `FileNotFoundError`: its loader
absorbs missing files, and every later stage raises only `KeyError` or the
`linregress` `ValueError`. -/
theorem analyze_never_fnf (fs : FileSystem) (m : String) :
    analyze_job_trends fs ≠ Except.error (PyError.fileNotFound m) := by
  intro h
  rw [analyze_job_trends] at h
  cases hl : loadAllReg fs with
  | nil => rw [hl] at h; cases h
  | cons t0 ts =>
    rw [hl] at h
    dsimp only at h
    cases hc : coerceEmpColumn (concatTables (t0 :: ts)) with
    | error e =>
      rw [hc] at h
      cases h
      have := coerceEmpColumn_error _ _ hc
      cases this
    | ok t1 =>
      rw [hc] at h
      dsimp only at h
      cases hf : filterDetailed t1 with
      | error e =>
        rw [hf] at h
        cases h
        have := filterDetailed_error _ _ hf
        cases this
      | ok t2 =>
        rw [hf] at h
        dsimp only at h
        cases hre : t2.rows.isEmpty with
        | true => rw [hre, if_pos rfl] at h; cases h
        | false =>
          rw [hre, if_neg (by simp)] at h
          cases hcode : t2.hasCode with
          | false => rw [hcode, if_pos rfl] at h; cases h
          | true =>
            rw [hcode, if_neg (by simp)] at h
            cases hs : slopesFor t2 calculate_slope_reg (groupKeys t2) with
            | error e =>
              rw [hs] at h
              cases h
              obtain ⟨k, _, hk⟩ := slopesFor_error hs
              have := calculate_slope_reg_error _ _ hk
              cases this
            | ok trends =>
              rw [hs] at h
              dsimp only at h
              cases htl : t2.hasTitle with
              | false => rw [htl, if_pos rfl] at h; cases h
              | true => rw [htl, if_neg (by simp)] at h; cases h

/-- An element of the left list of a `Forall₂` has a related partner. -/
theorem forall₂_mem_left {α β : Type} {P : α → β → Prop} :
    ∀ {l : List α} {res : List β}, List.Forall₂ P l res →
      ∀ a ∈ l, ∃ b ∈ res, P a b := by
  intro l res h
  induction h with
  | nil => intro a ha; cases ha
  | cons ha _ ih =>
    intro a2 ha2
    rcases List.mem_cons.mp ha2 with h | h
    · exact ⟨_, List.mem_cons_self _ _, h ▸ ha⟩
    · obtain ⟨b, hb, hP⟩ := ih a2 h
      exact ⟨b, List.mem_cons_of_mem _ hb, hP⟩

/-- When every requested year has a file, the `app.py` loader loop succeeds and
returns the standardized tables. -/
theorem exceptMapM_load_ok {fs : FileSystem} {P : RawFile → Prop} :
    ∀ l : List Int, (∀ y ∈ l, ∃ f, fs y = some f ∧ P f) →
      ∃ ts, exceptMapM (loadYearApp fs) l = Except.ok ts ∧
        List.Forall₂ (fun y t => ∃ f, fs y = some f ∧ P f ∧ t = standardizeFile y f) l ts := by
  intro l
  induction l with
  | nil => intro _; exact ⟨[], rfl, List.Forall₂.nil⟩
  | cons a l ih =>
    intro hall
    obtain ⟨f, hf, hPf⟩ := hall a (List.mem_cons_self a l)
    obtain ⟨ts, hts, hfor⟩ := ih (fun y hy => hall y (List.mem_cons_of_mem a hy))
    refine ⟨standardizeFile a f :: ts, ?_, List.Forall₂.cons ⟨f, hf, hPf, rfl⟩ hfor⟩
    rw [exceptMapM, loadYearApp, hf, hts]

/-- The concatenated table lacks a flagged column absent from every part. -/
theorem concat_hasGroup_false {ts : List UTable}
    (h : ∀ t ∈ ts, t.hasGroup = false) : (concatTables ts).hasGroup = false := by
  rw [concatTables]
  exact List.any_eq_false.mpr (fun t ht => by rw [h t ht]; exact Bool.false_ne_true)

/-- The concatenated table lacks the employment column absent everywhere. -/
theorem concat_hasEmp_false {ts : List UTable}
    (h : ∀ t ∈ ts, t.hasEmp = false) : (concatTables ts).hasEmp = false := by
  rw [concatTables]
  exact List.any_eq_false.mpr (fun t ht => by rw [h t ht]; exact Bool.false_ne_true)

/-- The concatenated table has the employment column when some part does. -/
theorem concat_hasEmp_true {ts : List UTable} {t : UTable}
    (ht : t ∈ ts) (h : t.hasEmp = true) : (concatTables ts).hasEmp = true := by
  rw [concatTables]
  exact List.any_eq_true.mpr ⟨t, ht, h⟩

/-- Loader evaluation on the end-to-end scenario. -/
theorem load8 : loadAllApp fs8 =
    Except.ok [tX 2015 100, tX 2016 110, tX 2017 120, tE, tE, tE, tE, tE, tE, tE] := by
  rfl

/-- Aggregation evaluation on the end-to-end scenario. -/
theorem agg8 : aggregateApp [tX 2015 100, tX 2016 110, tX 2017 120, tE, tE, tE, tE, tE, tE, tE] =
    Except.ok d8 := by
  rfl

/-- Slope of the synthetic series 100, 110, 120 over 2015..2017. -/
theorem slope8 : calculate_slope_app d8.rows = Except.ok (some 10) := by
  have hstep : calculate_slope_app d8.rows = Except.ok (some
      (olsSlope [((2015 : Int) : ℚ), ((2016 : Int) : ℚ), ((2017 : Int) : ℚ)]
        [((100 : Int) : ℚ), ((110 : Int) : ℚ), ((120 : Int) : ℚ)])) := by rfl
  rw [hstep]
  have hols : olsSlope [((2015 : Int) : ℚ), ((2016 : Int) : ℚ), ((2017 : Int) : ℚ)]
      [((100 : Int) : ℚ), ((110 : Int) : ℚ), ((120 : Int) : ℚ)] = 10 := by
    norm_num [olsSlope, sumQ]
  rw [hols]

/-- Per-group slope table of the end-to-end scenario. -/
theorem slopes8 : slopesFor d8 calculate_slope_app (groupKeys d8) =
    Except.ok [(Cell.str "X", some 10)] := by
  have hk : groupKeys d8 = [Cell.str "X"] := by rfl
  have hg : groupRows d8 (Cell.str "X") = d8.rows := by rfl
  rw [slopesFor, hk]
  simp only [exceptMapM, hg, slope8]

/-- Ranked table of the end-to-end scenario. -/
theorem rank8 : rankFrom d8 =
    Except.ok [⟨Cell.str "X", 10, Cell.str "Occupation X", 1⟩] := by
  rw [rankFrom, slopes8]
  rfl

/-- End-to-end evaluation of the `app.py` pipeline on the synthetic scenario. -/
theorem pipeline8 : load_and_process_data fs8 =
    Except.ok ([⟨Cell.str "X", 10, Cell.str "Occupation X", 1⟩], d8) := by
  simp only [load_and_process_data, load8, agg8, rank8]

/-- Lenient loader evaluation: years 2015 and 2018..2024 are skipped. -/
theorem loadC1 : loadAllReg fsC1 = [tX 2016 100, tX 2017 130] := by
  rfl

/-- Slope of the series 100, 130 over 2016..2017. -/
theorem slopeC1 : calculate_slope_reg dC1.rows = Except.ok (some 30) := by
  have hstep : calculate_slope_reg dC1.rows = Except.ok (some
      (olsSlope [((2016 : Int) : ℚ), ((2017 : Int) : ℚ)] [mkIntQ 100, mkIntQ 130])) := by rfl
  rw [hstep]
  have hols : olsSlope [((2016 : Int) : ℚ), ((2017 : Int) : ℚ)] [mkIntQ 100, mkIntQ 130] =
      30 := by
    norm_num [olsSlope, sumQ, mkIntQ_eq]
  rw [hols]

/-- The `regressao.py` pipeline on `fsC1` completes with a one-row ranking. -/
theorem analyzeC1 : analyze_job_trends fsC1 =
    Except.ok (some [⟨Cell.str "X", 30, Cell.str "Occupation X"⟩]) := by
  have hc : coerceEmpColumn (concatTables [tX 2016 100, tX 2017 130]) = Except.ok dC1 := by rfl
  have hf : filterDetailed dC1 = Except.ok dC1 := by rfl
  have hk : groupKeys dC1 = [Cell.str "X"] := by rfl
  have hg : groupRows dC1 (Cell.str "X") = dC1.rows := by rfl
  have hsl : slopesFor dC1 calculate_slope_reg (groupKeys dC1) =
      Except.ok [(Cell.str "X", some 30)] := by
    rw [slopesFor, hk]
    simp only [exceptMapM, hg, slopeC1]
  simp only [analyze_job_trends, loadC1, hc, hf, hsl]
  rfl

/-- Group rows of "A" in the two-occupation table. -/
theorem grpW2A : groupRows tW2 (Cell.str "A") =
    [⟨2015, Cell.str "A", Cell.str "Alpha", Cell.str "detailed", Cell.num (mkIntQ 1)⟩,
     ⟨2016, Cell.str "A", Cell.str "Alpha", Cell.str "detailed", Cell.num (mkIntQ 3)⟩] := by
  rfl

/-- Group rows of "B" in the two-occupation table. -/
theorem grpW2B : groupRows tW2 (Cell.str "B") =
    [⟨2015, Cell.str "B", Cell.str "Beta", Cell.str "detailed", Cell.num (mkIntQ 5)⟩,
     ⟨2016, Cell.str "B", Cell.str "Beta", Cell.str "detailed", Cell.num (mkIntQ 5)⟩] := by
  rfl

/-- Slope of the series 1, 3 over 2015..2016. -/
theorem slopeW2A : calculate_slope_app
    [⟨2015, Cell.str "A", Cell.str "Alpha", Cell.str "detailed", Cell.num (mkIntQ 1)⟩,
     ⟨2016, Cell.str "A", Cell.str "Alpha", Cell.str "detailed", Cell.num (mkIntQ 3)⟩] =
    Except.ok (some 2) := by
  have hstep : calculate_slope_app
      [⟨2015, Cell.str "A", Cell.str "Alpha", Cell.str "detailed", Cell.num (mkIntQ 1)⟩,
       ⟨2016, Cell.str "A", Cell.str "Alpha", Cell.str "detailed", Cell.num (mkIntQ 3)⟩] =
      Except.ok (some (olsSlope [((2015 : Int) : ℚ), ((2016 : Int) : ℚ)]
        [((1 : Int) : ℚ), ((3 : Int) : ℚ)])) := by rfl
  rw [hstep]
  have hols : olsSlope [((2015 : Int) : ℚ), ((2016 : Int) : ℚ)]
      [((1 : Int) : ℚ), ((3 : Int) : ℚ)] = 2 := by
    norm_num [olsSlope, sumQ]
  rw [hols]

/-- Slope of the constant series 5, 5 over 2015..2016. -/
theorem slopeW2B : calculate_slope_app
    [⟨2015, Cell.str "B", Cell.str "Beta", Cell.str "detailed", Cell.num (mkIntQ 5)⟩,
     ⟨2016, Cell.str "B", Cell.str "Beta", Cell.str "detailed", Cell.num (mkIntQ 5)⟩] =
    Except.ok (some 0) := by
  have hstep : calculate_slope_app
      [⟨2015, Cell.str "B", Cell.str "Beta", Cell.str "detailed", Cell.num (mkIntQ 5)⟩,
       ⟨2016, Cell.str "B", Cell.str "Beta", Cell.str "detailed", Cell.num (mkIntQ 5)⟩] =
      Except.ok (some (olsSlope [((2015 : Int) : ℚ), ((2016 : Int) : ℚ)]
        [((5 : Int) : ℚ), ((5 : Int) : ℚ)])) := by rfl
  rw [hstep]
  have hols : olsSlope [((2015 : Int) : ℚ), ((2016 : Int) : ℚ)]
      [((5 : Int) : ℚ), ((5 : Int) : ℚ)] = 0 := by
    norm_num [olsSlope, sumQ]
  rw [hols]

/-- Ranked table of the two-occupation scenario: "A" first, ranks 1 and 2. -/
theorem rankW2 : rankFrom tW2 = Except.ok
    [⟨Cell.str "A", 2, Cell.str "Alpha", 1⟩, ⟨Cell.str "B", 0, Cell.str "Beta", 2⟩] := by
  have hk : groupKeys tW2 = [Cell.str "A", Cell.str "B"] := by rfl
  have hsl : slopesFor tW2 calculate_slope_app (groupKeys tW2) =
      Except.ok [(Cell.str "A", some 2), (Cell.str "B", some 0)] := by
    rw [slopesFor, hk]
    simp only [exceptMapM, grpW2A, grpW2B, slopeW2A, slopeW2B]
  rw [rankFrom, hsl]
  rfl

/-- The truncating estimator sees the fractional series as constant zero. -/
theorem slopeFracApp : calculate_slope_app gFrac = Except.ok (some 0) := by
  have hstep : calculate_slope_app gFrac = Except.ok (some
      (olsSlope [((2015 : Int) : ℚ), ((2016 : Int) : ℚ)]
        [((0 : Int) : ℚ), ((0 : Int) : ℚ)])) := by rfl
  rw [hstep]
  have hols : olsSlope [((2015 : Int) : ℚ), ((2016 : Int) : ℚ)]
      [((0 : Int) : ℚ), ((0 : Int) : ℚ)] = 0 := by
    norm_num [olsSlope, sumQ]
  rw [hols]

/-- The untruncated estimator computes the true slope of the fractional series. -/
theorem slopeFracReg : calculate_slope_reg gFrac = Except.ok (some (-(1 / 2))) := by
  have hstep : calculate_slope_reg gFrac = Except.ok (some
      (olsSlope [((2015 : Int) : ℚ), ((2016 : Int) : ℚ)] [halfQ, mkIntQ 0])) := by rfl
  rw [hstep]
  have hols : olsSlope [((2015 : Int) : ℚ), ((2016 : Int) : ℚ)] [halfQ, mkIntQ 0] =
      -(1 / 2) := by
    norm_num [olsSlope, sumQ, halfQ_eq, mkIntQ_eq]
  rw [hols]

/-- Length of the ranked table. -/
theorem addRanks_length (l : List TRow) : (addRanks l).length = l.length :=
  addRanksFrom_length l 0

/-- Entry of the ranked table: same row, rank is the 1-based position. -/
theorem addRanks_getElem (l : List TRow) (j : Nat) (hj : j < l.length)
    (hj2 : j < (addRanks l).length) :
    (addRanks l)[j] = ⟨l[j].occCode, l[j].slope, l[j].occTitle, j + 1⟩ := by
  have h3 : j < (addRanksFrom l 0).length := hj2
  have h4 := addRanksFrom_getElem l 0 j hj h3
  have h5 : (addRanks l)[j] = (addRanksFrom l 0)[j] := rfl
  rw [h5, h4]
  simp

/-- The ranked table built from any joined table is sorted descending by slope
and its rank column is the 1-based position. -/
theorem addRanks_sorted_props (l0 : List TRow) :
    (∀ i : Nat, (h1 : i + 1 < (addRanks (sortDesc l0)).length) →
      (addRanks (sortDesc l0))[i + 1].slope ≤ (addRanks (sortDesc l0))[i].slope) ∧
    (∀ i : Nat, (h2 : i < (addRanks (sortDesc l0)).length) →
      (addRanks (sortDesc l0))[i].rank = i + 1) := by
  have hsorted : List.Sorted slopeGE (sortDesc l0) := sortDesc_sorted l0
  have hlen : (addRanks (sortDesc l0)).length = (sortDesc l0).length :=
    addRanks_length (sortDesc l0)
  constructor
  · intro i h1
    have hi1 : i + 1 < (sortDesc l0).length := by omega
    have hi0 : i < (sortDesc l0).length := by omega
    rw [addRanks_getElem (sortDesc l0) (i + 1) hi1 h1,
      addRanks_getElem (sortDesc l0) i hi0 (by omega)]
    exact List.pairwise_iff_getElem.mp hsorted i (i + 1) hi0 hi1 (by omega)
  · intro i h2
    have hi0 : i < (sortDesc l0).length := by omega
    rw [addRanks_getElem (sortDesc l0) i hi0 h2]

/-- Aggregation fails with the group-label `KeyError` when the concatenated
table has the employment column but no group column. -/
theorem aggregateApp_keyError_group {ts : List UTable} (hne : ts.isEmpty = false)
    (hemp : (concatTables ts).hasEmp = true)
    (hgrp : (concatTables ts).hasGroup = false) :
    aggregateApp ts = Except.error (PyError.keyError "OCC_GROUP") := by
  rw [aggregateApp, if_neg (by simp [hne]), coerceEmpColumn, if_pos hemp]
  dsimp only
  rw [filterDetailed]
  rw [if_neg (by simp [hgrp])]

/-- Aggregation fails with the employment `KeyError` when the concatenated
table has no employment column. -/
theorem aggregateApp_keyError_emp {ts : List UTable} (hne : ts.isEmpty = false)
    (hempf : (concatTables ts).hasEmp = false) :
    aggregateApp ts = Except.error (PyError.keyError "TOT_EMP") := by
  rw [aggregateApp, if_neg (by simp [hne]), coerceEmpColumn, if_neg (by simp [hempf])]

/-- A loader failure is the pipeline result. -/
theorem load_error_of_loader {fs : FileSystem} {e : PyError}
    (hl : loadAllApp fs = Except.error e) :
    load_and_process_data fs = Except.error e := by
  simp only [load_and_process_data, hl]

/-- An aggregation failure is the pipeline result. -/
theorem load_error_of_agg {fs : FileSystem} {ts : List UTable} {e : PyError}
    (hl : loadAllApp fs = Except.ok ts) (ha : aggregateApp ts = Except.error e) :
    load_and_process_data fs = Except.error e := by
  simp only [load_and_process_data, hl, ha]

/-- C1 (amended): in `app.py`, whenever some requested year has no input file,
`load_and_process_data` aborts with a `FileNotFoundError` naming the missing
year and path, and produces no ranked output; in `regressao.py`, a missing file
for a year is not fatal — the loader never raises `FileNotFoundError` at all
(the year is skipped with a console warning), so missing years do not abort the
pipeline there. -/
theorem c1_missing_file_fatal_only_in_app :
    (∀ fs : FileSystem, (∃ y ∈ years, fs y = none) →
      ∃ y ∈ years, fs y = none ∧
        load_and_process_data fs = Except.error (PyError.fileNotFound
          ("Arquivo nao encontrado: " ++ fileNameOf y ++ ". Verifique a pasta base_dados."))) ∧
    (∀ (fs : FileSystem) (m : String),
      analyze_job_trends fs ≠ Except.error (PyError.fileNotFound m)) := by
  constructor
  · intro fs hex
    obtain ⟨y, hy, hn, heq⟩ := exceptMapM_first_missing fs years hex
    refine ⟨y, hy, hn, ?_⟩
    exact load_error_of_loader heq
  · intro fs m
    exact analyze_never_fnf fs m

/-- C1 counterexample: on `fsC1` the file of requested year 2015 does not
exist, yet the `regressao.py` pipeline does not abort — it returns a nonempty
ranked table (built from 2016 and 2017 alone), refuting the claim that for
both implementations a missing year file is fatal and no ranked output is
produced. -/
theorem c1_regressao_not_fatal_counterexample :
    fsC1 2015 = none ∧ (2015 : Int) ∈ years ∧
    analyze_job_trends fsC1 =
      Except.ok (some [⟨Cell.str "X", 30, Cell.str "Occupation X"⟩]) ∧
    (some [(⟨Cell.str "X", 30, Cell.str "Occupation X"⟩ : TRow)] ≠
      (none : Option (List TRow))) := by
  refine ⟨rfl, by decide, analyzeC1, by simp⟩

/-- C1 witness: with every year file missing, `app.py` aborts with the
`FileNotFoundError`, while `regressao.py` still does not raise it. -/
theorem c1_witness :
    (∃ y ∈ years, fsNone y = none ∧
      load_and_process_data fsNone = Except.error (PyError.fileNotFound
        ("Arquivo nao encontrado: " ++ fileNameOf y ++ ". Verifique a pasta base_dados."))) ∧
    analyze_job_trends fsNone ≠ Except.error (PyError.fileNotFound "x") :=
  ⟨c1_missing_file_fatal_only_in_app.1 fsNone ⟨2015, by decide, rfl⟩,
   c1_missing_file_fatal_only_in_app.2 fsNone "x"⟩

/-- C2: in every ranked table a successful Ranker run produces, adjacent rows
have nonincreasing slope and the rank column of the row at 1-based position i
equals i. -/
theorem c2_rank_is_descending_position (t : UTable) (R : List RankedRow)
    (h : rankFrom t = Except.ok R) :
    (∀ i : Nat, (h1 : i + 1 < R.length) → R[i + 1].slope ≤ R[i].slope) ∧
    (∀ i : Nat, (h2 : i < R.length) → R[i].rank = i + 1) := by
  obtain ⟨_, _, trends, _, hReq⟩ := rankFrom_ok_elim t R h
  subst hReq
  exact addRanks_sorted_props _

/-- C2 witness: the two-occupation table ranks "A" (slope 2) before "B"
(slope 0) with ranks 1 and 2. -/
theorem c2_witness :
    ([(⟨Cell.str "A", 2, Cell.str "Alpha", 1⟩ : RankedRow),
      ⟨Cell.str "B", 0, Cell.str "Beta", 2⟩])[1].slope ≤
      ([(⟨Cell.str "A", 2, Cell.str "Alpha", 1⟩ : RankedRow),
        ⟨Cell.str "B", 0, Cell.str "Beta", 2⟩])[0].slope ∧
    ([(⟨Cell.str "A", 2, Cell.str "Alpha", 1⟩ : RankedRow),
      ⟨Cell.str "B", 0, Cell.str "Beta", 2⟩])[0].rank = 1 := by
  obtain ⟨hs, hr⟩ := c2_rank_is_descending_position tW2 _ rankW2
  exact ⟨hs 0 (by decide), hr 0 (by decide)⟩

/-- C4: an occupation code with fewer than two valid records (non-null year and
non-null employment) gets no trend result from either estimator — `NaN`, not an
exception — and no row of any ranked table the Ranker produces carries that
code. -/
theorem c4_insufficient_history_dropped (t : UTable) (k : Cell)
    (h : ((groupRows t k).filter isValidRow).length < 2) :
    calculate_slope_app (groupRows t k) = Except.ok none ∧
    calculate_slope_reg (groupRows t k) = Except.ok none ∧
    ∀ R, rankFrom t = Except.ok R → ∀ row ∈ R, row.occCode ≠ k := by
  refine ⟨calculate_slope_app_short _ h, calculate_slope_reg_short _ h, ?_⟩
  intro R hR row hrow hck
  obtain ⟨_, _, trends, htr, hReq⟩ := rankFrom_ok_elim t R hR
  subst hReq
  obtain ⟨tr, htrmem, hc, _, _⟩ := mem_addRanksFrom hrow
  have htr2 := mem_sortDesc.mp htrmem
  obtain ⟨_, hdf⟩ := mem_mergeTitles htr2
  obtain ⟨p, hp, hpe⟩ := List.mem_filterMap.mp hdf
  revert hpe
  cases hp2 : p.2 with
  | none => intro hpe; cases hpe
  | some s =>
    intro hpe
    have h3 := Option.some.inj hpe
    have hfst : p.1 = tr.occCode := congrArg Prod.fst h3
    have hok := slopesFor_ok_mem t calculate_slope_app htr p hp
    rw [hp2, hfst] at hok
    have hkey : tr.occCode = k := by rw [← hc]; exact hck
    rw [hkey] at hok
    rw [calculate_slope_app_short _ h] at hok
    cases hok

/-- C4 witness: occupation "A" appears in a single year of `t4`, both
estimators return `NaN` for it. -/
theorem c4_witness :
    calculate_slope_app (groupRows t4 (Cell.str "A")) = Except.ok none ∧
    calculate_slope_reg (groupRows t4 (Cell.str "A")) = Except.ok none :=
  ⟨(c4_insufficient_history_dropped t4 (Cell.str "A") (by decide)).1,
   (c4_insufficient_history_dropped t4 (Cell.str "A") (by decide)).2.1⟩

/-- C5 (amended): on a series with at least two valid records whose years are
all identical, the `app.py` Trend Estimator does not yield "no result" — the
embedded `linregress` raises a `ValueError` ("Cannot calculate a linear
regression if all x values are identical"), which propagates and aborts the
whole pipeline. -/
theorem c5_identical_years_raise (g : List URow)
    (h2 : 2 ≤ (g.filter isValidRow).length)
    (heq : allEqualInt ((g.filter isValidRow).map (fun r => r.year)) = true) :
    calculate_slope_app g = Except.error (PyError.valueError scipyIdenticalMsg) :=
  calculate_slope_app_identical g (by omega) heq

/-- C5 counterexample: the two-record single-year series `g5` makes the
estimator raise rather than return "no result", refuting the claim that zero
year variance is treated as "no result" instead of an exception. -/
theorem c5_counterexample :
    calculate_slope_app g5 = Except.error (PyError.valueError scipyIdenticalMsg) ∧
    calculate_slope_app g5 ≠ Except.ok none := by
  constructor
  · rfl
  · decide

/-- C5 witness: the amended statement applied to the concrete series `g5`. -/
theorem c5_witness :
    calculate_slope_app g5 = Except.error (PyError.valueError scipyIdenticalMsg) :=
  c5_identical_years_raise g5 (by decide) (by decide)

/-- C6: numeric coercion of employment cells is total and lenient — every cell
maps to a number or to null, an unparseable token maps to null (which is not
the number zero), and on any table whose employment column exists the coercion
step succeeds without dropping or adding rows. -/
theorem c6_lenient_numeric_coercion :
    (∀ c : Cell, to_numeric_coerce c = Cell.null ∨ ∃ q : ℚ, to_numeric_coerce c = Cell.num q) ∧
    (∀ s : String, parseNumToken s = none → to_numeric_coerce (Cell.str s) = Cell.null) ∧
    (∀ t : UTable, t.hasEmp = true →
      ∃ t2, coerceEmpColumn t = Except.ok t2 ∧ t2.rows.length = t.rows.length) ∧
    Cell.null ≠ Cell.num 0 := by
  refine ⟨?_, ?_, ?_, by decide⟩
  · intro c
    cases c with
    | null => exact Or.inl rfl
    | num q => exact Or.inr ⟨q, rfl⟩
    | str s =>
      cases hp : parseNumToken s with
      | none => exact Or.inl (by simp only [to_numeric_coerce, hp])
      | some q => exact Or.inr ⟨q, by simp only [to_numeric_coerce, hp]⟩
  · intro s hp
    simp only [to_numeric_coerce, hp]
  · intro t ht
    exact ⟨_, by rw [coerceEmpColumn, if_pos ht], by simp⟩

/-- C6 witness: the agency suppression markers coerce to null. -/
theorem c6_witness :
    to_numeric_coerce (Cell.str "#") = Cell.null ∧
    to_numeric_coerce (Cell.str "*") = Cell.null :=
  ⟨c6_lenient_numeric_coercion.2.1 "#" (by rfl),
   c6_lenient_numeric_coercion.2.1 "*" (by rfl)⟩

/-- C7: in every successful `app.py` run, each ranked row whose occupation code
has some detailed record with a non-null title carries the title of the last
such record, and that record is chronologically last among the non-null-titled
records of the code (the detailed table is sorted by year by construction). -/
theorem c7_title_of_most_recent_record (fs : FileSystem) (R : List RankedRow)
    (d : UTable) (h : load_and_process_data fs = Except.ok (R, d)) :
    ∀ row ∈ R, (∃ r ∈ groupRows d row.occCode, r.occTitle ≠ Cell.null) →
      ∃ r ∈ groupRows d row.occCode, r.occTitle ≠ Cell.null ∧
        row.occTitle = r.occTitle ∧
        ∀ r2 ∈ groupRows d row.occCode, r2.occTitle ≠ Cell.null → r2.year ≤ r.year := by
  intro row hrow hex
  have hsort := pipeline_detailed_sorted fs R d h
  obtain ⟨ts, _, _, hr⟩ := load_ok_elim fs R d h
  obtain ⟨_, _, trends, _, hReq⟩ := rankFrom_ok_elim d R hr
  subst hReq
  obtain ⟨tr, htrmem, hc, _, htitle⟩ := mem_addRanksFrom hrow
  have htr2 := mem_sortDesc.mp htrmem
  obtain ⟨hT, _⟩ := mem_mergeTitles htr2
  obtain ⟨r, hrmem, hrt, hlt, hmax⟩ :=
    lastTitle_spec d row.occCode (groupRows_pairwise d row.occCode hsort) hex
  refine ⟨r, hrmem, hrt, ?_, hmax⟩
  rw [htitle, hT, ← hc, hlt]

/-- C7 witness: in the end-to-end scenario the ranked row of "X" carries the
title of the chronologically last record with a non-null title. -/
theorem c7_witness :
    ∃ r ∈ groupRows d8 ((⟨Cell.str "X", 10, Cell.str "Occupation X", 1⟩ : RankedRow).occCode),
      r.occTitle ≠ Cell.null ∧
      (⟨Cell.str "X", 10, Cell.str "Occupation X", 1⟩ : RankedRow).occTitle = r.occTitle ∧
      ∀ r2 ∈ groupRows d8 ((⟨Cell.str "X", 10, Cell.str "Occupation X", 1⟩ : RankedRow).occCode),
        r2.occTitle ≠ Cell.null → r2.year ≤ r.year :=
  c7_title_of_most_recent_record fs8 _ d8 pipeline8 _ (List.mem_singleton.mpr rfl)
    ⟨u8 2015 100, by decide, by decide⟩

/-- C8: on the synthetic input with only occupation "X" at employment 100, 110,
120 in 2015..2017 (and empty files for the remaining requested years), the
pipeline computes slope 10 for "X" and the ranked table is exactly one row with
rank 1. -/
theorem c8_end_to_end_scenario : load_and_process_data fs8 =
    Except.ok ([⟨Cell.str "X", 10, Cell.str "Occupation X", 1⟩], d8) :=
  pipeline8

/-- C9: the `app.py` estimator casts employment to `int64` before fitting, so
on every series whose valid employment values are integral it agrees with the
untruncated OLS fit of `regressao.py`, while on the fractional series `gFrac`
the truncating fit returns 0 and the OLS fit on the original values returns
-1/2. -/
theorem c9_int64_cast_truncation :
    (∀ g : List URow, (∀ r ∈ g.filter isValidRow, (empVal r).den = 1) →
      calculate_slope_app g = calculate_slope_reg g) ∧
    calculate_slope_app gFrac = Except.ok (some 0) ∧
    calculate_slope_reg gFrac = Except.ok (some (-(1 / 2))) ∧
    calculate_slope_app gFrac ≠ calculate_slope_reg gFrac := by
  refine ⟨?_, slopeFracApp, slopeFracReg, ?_⟩
  · intro g hden
    have hmap : (g.filter isValidRow).map (fun r => ((truncQ (empVal r) : Int) : ℚ)) =
        (g.filter isValidRow).map (fun r => empVal r) :=
      List.map_congr_left (fun r hr => truncQ_cast_of_den_one (empVal r) (hden r hr))
    simp only [calculate_slope_app, calculate_slope_reg, hmap]
  · rw [slopeFracApp, slopeFracReg]
    intro hcontra
    have h1 := Except.ok.inj hcontra
    have h2 := Option.some.inj h1
    norm_num at h2

/-- C9 witness: on the integral series `gInt` both estimators agree. -/
theorem c9_witness : calculate_slope_app gInt = calculate_slope_reg gInt :=
  c9_int64_cast_truncation.1 gInt (by decide)

/-- C10: when every loaded year file lacks both spellings of the group-label
column (but has the employment column), the pipeline fails with the `KeyError`
for `OCC_GROUP` — not with the specified "no detailed data" diagnostic — and
when every year file lacks the employment column, it fails with the `KeyError`
for `TOT_EMP` at the coercion step. -/
theorem c10_missing_column_keyerror :
    (∀ fs : FileSystem, (∀ y ∈ years, ∃ f, fs y = some f ∧
        f.hasOccGroup = false ∧ f.hasOGroup = false ∧ f.hasEmp = true) →
      load_and_process_data fs = Except.error (PyError.keyError "OCC_GROUP") ∧
      load_and_process_data fs ≠ Except.error (PyError.exception noDetailedMsg)) ∧
    (∀ fs : FileSystem, (∀ y ∈ years, ∃ f, fs y = some f ∧ f.hasEmp = false) →
      load_and_process_data fs = Except.error (PyError.keyError "TOT_EMP")) := by
  constructor
  · intro fs hall
    obtain ⟨ts, hok, hfor⟩ := exceptMapM_load_ok years hall
    have hts_ne : ts.isEmpty = false := by
      rw [years] at hfor
      cases hfor with
      | cons hab hrest => rfl
    have hgroup_false : ∀ t ∈ ts, t.hasGroup = false := by
      intro t ht
      obtain ⟨y, _, f, _, hP, hteq⟩ := forall₂_mem_right hfor t ht
      rw [hteq, standardizeFile]
      simp [hP.1, hP.2.1]
    have hemp_true : (concatTables ts).hasEmp = true := by
      obtain ⟨t, ht, f, _, hP, hteq⟩ := forall₂_mem_left hfor 2015 (by decide)
      apply concat_hasEmp_true ht
      rw [hteq, standardizeFile]
      exact hP.2.2
    have heq : load_and_process_data fs = Except.error (PyError.keyError "OCC_GROUP") :=
      load_error_of_agg hok
        (aggregateApp_keyError_group hts_ne hemp_true (concat_hasGroup_false hgroup_false))
    exact ⟨heq, by rw [heq]; simp⟩
  · intro fs hall
    obtain ⟨ts, hok, hfor⟩ := exceptMapM_load_ok years hall
    have hts_ne : ts.isEmpty = false := by
      rw [years] at hfor
      cases hfor with
      | cons hab hrest => rfl
    have hemp_false : ∀ t ∈ ts, t.hasEmp = false := by
      intro t ht
      obtain ⟨y, _, f, _, hP, hteq⟩ := forall₂_mem_right hfor t ht
      rw [hteq, standardizeFile]
      simpa using hP
    exact load_error_of_agg hok
      (aggregateApp_keyError_emp hts_ne (concat_hasEmp_false hemp_false))

/-- C10 witness: the two concrete filesystems exercise both failure modes. -/
theorem c10_witness :
    load_and_process_data fs10a = Except.error (PyError.keyError "OCC_GROUP") ∧
    load_and_process_data fs10b = Except.error (PyError.keyError "TOT_EMP") :=
  ⟨(c10_missing_column_keyerror.1 fs10a
      (fun _ _ => ⟨fileNoGroup, rfl, rfl, rfl, rfl⟩)).1,
   c10_missing_column_keyerror.2 fs10b
      (fun _ _ => ⟨fileNoEmp, rfl, rfl⟩)⟩

end EmpregosFuturo
